import Mathlib

/-!
A verification development for the mage-os dashboard generator
(`src/generate-dashboard.js`, the variant whose reconciler dedupes upstream
repositories through a `Map` and fetches workflow runs through `Promise.all`).

Modelling conventions:
* JS strings are sequences of code units; they are modelled as `List Char`
  (`JStr`).  `String.prototype.startsWith` is `List.isPrefixOf`,
  `String.prototype.substring(n)` is `List.drop n`.
* `a.localeCompare(b)` is modelled as locale-naive code-point comparison
  (`jsStrLe`), and `Array.prototype.sort` as a stable comparison sort
  (`List.insertionSort`).
* Network I/O is an oracle passed as a function argument; a fetch either
  yields a transport failure (non-success HTTP status) or a decoded body.
* Thrown JS errors are `Except JsError`; `JsError` carries the message.
* Template literals are concatenation of the literal fragments with the
  interpolated fields, in source order; purely decorative inter-tag
  indentation and the constant `<style>` text are elided.
-/

/-- JS strings are modelled as lists of characters. -/
abbrev JStr := List Char

/-- Embeds a Lean string literal into the JS string model. -/
def lit (s : String) : JStr := s.data

/-- A thrown JS `Error`, carrying its message. -/
structure JsError where
  message : JStr
deriving DecidableEq

/-- Locale-naive code-point comparison: `jsStrLe a b` holds when
`a.localeCompare(b) <= 0` under the code-point order.  This is the
locale-naive total order the spec allows for name sorting. -/
def jsStrLe : JStr → JStr → Bool
  | [], _ => true
  | _ :: _, [] => false
  | a :: as, b :: bs =>
    if a.toNat < b.toNat then true
    else if b.toNat < a.toNat then false
    else jsStrLe as bs

/-- A repository record of the REST organization listing
(`/orgs/magento/repos`): the fields `generateMissingMirrorsSection` reads. -/
structure RestRepo where
  name : JStr
  html_url : JStr
  updated_at : Option JStr
  archived : Bool
deriving DecidableEq

/-- A label node of the GraphQL query. -/
structure LabelNode where
  name : JStr
  color : JStr
deriving DecidableEq

/-- An issue node of the GraphQL query. -/
structure IssueNode where
  title : JStr
  url : JStr
  createdAt : JStr
  updatedAt : JStr
  labels : List LabelNode
deriving DecidableEq

/-- A pull-request node of the GraphQL query. -/
structure PullNode where
  title : JStr
  url : JStr
  createdAt : JStr
  updatedAt : JStr
  author : JStr
deriving DecidableEq

/-- The `issues` connection of a repository node. -/
structure IssueConn where
  totalCount : Nat
  nodes : List IssueNode
deriving DecidableEq

/-- The `pullRequests` connection of a repository node. -/
structure PullConn where
  totalCount : Nat
  nodes : List PullNode
deriving DecidableEq

/-- A repository node of the GraphQL organization query. -/
structure RepoNode where
  name : JStr
  url : JStr
  updatedAt : JStr
  isArchived : Bool
  issues : IssueConn
  pullRequests : PullConn
deriving DecidableEq

/-- One insertion into a JS `Map`: an existing key keeps its position and has
its value replaced; a new key is appended (JS `Map` preserves insertion
order). -/
def jsMapInsert (m : List (JStr × α)) (k : JStr) (v : α) : List (JStr × α) :=
  if m.any (fun p => p.1 == k) then
    m.map (fun p => if p.1 == k then (k, v) else p)
  else m ++ [(k, v)]

/-- `new Map(pairs)`: the pairs are inserted left to right. -/
def jsMapOfList (pairs : List (JStr × α)) : List (JStr × α) :=
  pairs.foldl (fun m p => jsMapInsert m p.1 p.2) []

/-- The `mirroredRepoNames` set of `generateMissingMirrorsSection`: the names
of mirror-organization repositories carrying the `"mirror-"` prefix
(`repo.name.startsWith('mirror-')`), with the prefix stripped
(`repo.name.substring(7)`). -/
def mirroredRepoNames (mageOsRepos : List RepoNode) : List JStr :=
  (mageOsRepos.filter (fun repo => (lit (r"mirror-")).isPrefixOf repo.name)).map
    (fun repo => repo.name.drop 7)

/-- The sort relation `(a, b) => a.name.localeCompare(b.name)` on REST
repository records. -/
def restNameLe (a b : RestRepo) : Prop := jsStrLe a.name b.name = true

instance : DecidableRel restNameLe :=
  fun a b => inferInstanceAs (Decidable (jsStrLe a.name b.name = true))

/-- The unmirrored scan of `generateMissingMirrorsSection` (the spec's
`findUnmirrored`): dedupe the upstream repositories through a JS `Map` keyed
by name, keep every entry whose name is neither in `mirroredRepoNames` nor in
the ignore list, and sort the survivors by name. -/
def findUnmirrored (magentoRepos : List RestRepo) (mageOsRepos : List RepoNode)
    (ignoreList : List JStr) : List RestRepo :=
  let magentoReposMap := jsMapOfList (magentoRepos.map (fun repo => (repo.name, repo)))
  let mirrored := mirroredRepoNames mageOsRepos
  let unmirroredRepos :=
    (magentoReposMap.filter
      (fun p => !(mirrored.contains p.1) && !(ignoreList.contains p.1))).map Prod.snd
  List.insertionSort restNameLe unmirroredRepos

/-- One run record of the REST `actions/runs` response. -/
structure WorkflowRunRecord where
  created_at : JStr
deriving DecidableEq

/-- The decoded body of `fetchWorkflowRunsForRepo`: the `workflow_runs` field
may be absent. -/
structure RunsData where
  workflow_runs : Option (List WorkflowRunRecord)
deriving DecidableEq

/-- A repository spread together with its `lastRunDate`
(`{ ...repo, lastRunDate }`). -/
structure RepoWithRun where
  repo : RepoNode
  lastRunDate : Option JStr
deriving DecidableEq

/-- One arm of the `Promise.all` fan-out of `generateWorkflowRunsSection`:
a successful lookup keeps the first run's creation date (or none when the
list is absent or empty); a thrown lookup is caught, logged, and degraded to
a null `lastRunDate`. -/
def resolveRepo (lookup : JStr → Except JsError RunsData) (repo : RepoNode) : RepoWithRun :=
  match lookup repo.name with
  | .error _ => { repo := repo, lastRunDate := none }
  | .ok runsData =>
    { repo := repo,
      lastRunDate :=
        match runsData.workflow_runs with
        | some (run :: _) => some run.created_at
        | _ => none }

/-- `Promise.all` slot semantics: each task's eventual value is written into
its own index slot as it completes; `order` is the completion order of the
task indices.  The batch's result is the slot array. -/
def promiseAllSlots (tasks : List α) (order : List Nat) : List (Option α) :=
  order.foldl
    (fun slots i =>
      match tasks[i]? with
      | some v => slots.set i (some v)
      | none => slots)
    (List.replicate tasks.length none)

/-- `String.prototype.replace` with a single-character pattern: replaces the
first occurrence only. -/
def replaceFirst (pat rep : Char) : JStr → JStr
  | [] => []
  | c :: cs => if c = pat then rep :: cs else c :: replaceFirst pat rep cs

/-- The `formattedDate` local of `generateWorkflowRunsSection`: the run date
rendered as `YYYY-MM-DD HH:MM:SS`, or the `'-'` marker when there is no run
(`toISOString` is modelled as the identity on the stored ISO-UTC string). -/
def formattedRunDate : Option JStr → JStr
  | some d => (replaceFirst ('T') (' ') d).take 19
  | none => lit (r"-")

/-- The sort relation `(a, b) => a.name.localeCompare(b.name)` on GraphQL
repository nodes. -/
def nodeNameLe (a b : RepoNode) : Prop := jsStrLe a.name b.name = true

instance : DecidableRel nodeNameLe :=
  fun a b => inferInstanceAs (Decidable (jsStrLe a.name b.name = true))

def sampleIssue : IssueNode :=
  { title := lit (r"Fix checkout totals"), url := lit (r"https://i/1"),
    createdAt := lit (r"2024-01-01T00:00:00Z"), updatedAt := lit (r"2024-01-02T00:00:00Z"),
    labels := [] }

def sampleNodeA : RepoNode :=
  { name := lit (r"alpha"), url := lit (r"https://m/alpha"),
    updatedAt := lit (r"2024-01-01T00:00:00Z"), isArchived := false,
    issues := ⟨1, [sampleIssue]⟩, pullRequests := ⟨0, []⟩ }

def sampleNodeB : RepoNode :=
  { name := lit (r"beta"), url := lit (r"https://m/beta"),
    updatedAt := lit (r"2024-01-01T00:00:00Z"), isArchived := false,
    issues := ⟨0, []⟩, pullRequests := ⟨0, []⟩ }

def sampleErr : JsError := ⟨lit (r"GitHub API error: Server Error")⟩

/-- A lookup oracle that succeeds for `alpha` and throws for everything else. -/
def sampleLookup : JStr → Except JsError RunsData :=
  fun nm =>
    if nm == lit (r"alpha") then .ok ⟨some [⟨lit (r"2024-03-01T12:30:45Z")⟩]⟩
    else .error sampleErr

/-- A lookup oracle that agrees with `sampleLookup` except at `beta`. -/
def sampleLookupAlt : JStr → Except JsError RunsData :=
  fun nm => if nm == lit (r"beta") then .ok ⟨some []⟩ else sampleLookup nm

def sampleMagentoA : RestRepo :=
  { name := lit (r"magento2"), html_url := lit (r"https://e/magento2"),
    updated_at := some (lit (r"2024-01-02T03:04:05Z")), archived := false }

def sampleMagentoB : RestRepo :=
  { name := lit (r"baler"), html_url := lit (r"https://e/baler"),
    updated_at := none, archived := false }

def sampleMirrorNode : RepoNode :=
  { name := lit (r"mirror-magento2"), url := lit (r"https://m/mirror-magento2"),
    updatedAt := lit (r"2024-02-02T00:00:00Z"), isArchived := false,
    issues := ⟨0, []⟩, pullRequests := ⟨0, []⟩ }

/-- The page loop of `fetchMagentoRepos`: requests successive pages starting
at `page`, accumulating into `allRepos`; a non-success response throws, and a
page with fewer than 100 records ends the loop.  `fuel` bounds the number of
iterations; `none` means the loop did not finish within the fuel.  The
`pages` oracle yields, per page number, either the thrown transport error or
the decoded page body. -/
def fetchLoop (pages : Nat → Except JsError (List RestRepo)) :
    Nat → Nat → List RestRepo → Option (Except JsError (List RestRepo))
  | 0, _, _ => none
  | fuel + 1, page, allRepos =>
    match pages page with
    | .error e => some (.error e)
    | .ok repos =>
      if repos.length < 100 then some (.ok (allRepos ++ repos))
      else fetchLoop pages fuel (page + 1) (allRepos ++ repos)

/-- `fetchMagentoRepos`: pages through the listing endpoint starting at page
1 and filters out archived repositories from the accumulated result. -/
def fetchMagentoRepos (pages : Nat → Except JsError (List RestRepo)) (fuel : Nat) :
    Option (Except JsError (List RestRepo)) :=
  (fetchLoop pages fuel 1 []).map
    (fun res => res.map (fun allRepos => allRepos.filter (fun repo => !repo.archived)))

/-- A single-page listing: page 1 has one repository, later pages are never
reached. -/
def samplePages : Nat → Except JsError (List RestRepo) :=
  fun page => if page == 1 then .ok [sampleMagentoA] else .error sampleErr

/-- A listing whose very first page request fails. -/
def samplePagesErr : Nat → Except JsError (List RestRepo) :=
  fun _ => .error sampleErr

/-- One row of the Issues sub-table (decorative indentation elided). -/
def issueRow (issue : IssueNode) : JStr :=
  lit (r#"<tr><td><a href=""#) ++ issue.url
    ++ lit (r#"" class="text-decoration-none truncate-text" target="_blank" title=""#)
    ++ issue.title ++ lit (r#"">"#) ++ issue.title ++ lit (r#"</a></td></tr>"#)

/-- One row of the Pull Requests sub-table. -/
def pullRow (pr : PullNode) : JStr :=
  lit (r#"<tr><td><a href=""#) ++ pr.url
    ++ lit (r#"" class="text-decoration-none truncate-text" target="_blank" title=""#)
    ++ pr.title ++ lit (r#"">"#) ++ pr.title ++ lit (r#"</a></td></tr>"#)

/-- The Issues sub-table of a repository card: rendered exactly when the open
issue count is positive (`repo.issues.totalCount > 0 ? ... : ''`). -/
def issuesBlock (repo : RepoNode) : JStr :=
  if 0 < repo.issues.totalCount then
    lit (r#"<h3 class="h6 table-title">Issues</h3><table class="table table-hover"><tbody>"#)
      ++ (repo.issues.nodes.map issueRow).flatten ++ lit (r#"</tbody></table>"#)
  else []

/-- The Pull Requests sub-table of a repository card: rendered exactly when
the open pull-request count is positive. -/
def pullsBlock (repo : RepoNode) : JStr :=
  if 0 < repo.pullRequests.totalCount then
    lit (r#"<h3 class="h6 table-title">Pull Requests</h3><table class="table table-hover"><tbody>"#)
      ++ (repo.pullRequests.nodes.map pullRow).flatten ++ lit (r#"</tbody></table>"#)
  else []

/-- One repository card of an organization section. -/
def repoCard (repo : RepoNode) : JStr :=
  lit (r#"<div class="col"><div class="card h-100"><div class="card-header"><h2><a href=""#)
    ++ repo.url ++ lit (r#"" class="text-decoration-none" target="_blank">"#)
    ++ repo.name ++ lit (r#"</a></h2></div><div class="card-body">"#)
    ++ issuesBlock repo ++ pullsBlock repo
    ++ lit (r#"</div></div></div>"#)

/-- The `activeRepos` filter of `generateOrgSection`: repositories with open
issues or open pull requests. -/
def activeRepos (repos : List RepoNode) : List RepoNode :=
  repos.filter (fun repo =>
    decide (0 < repo.issues.totalCount) || decide (0 < repo.pullRequests.totalCount))

/-- `generateOrgSection` over the repository nodes: the empty string when no
repository is active, else a section with one card per active repository. -/
def generateOrgSectionCore (orgName : JStr) (repos : List RepoNode) : JStr :=
  let act := activeRepos repos
  if act.isEmpty then []
  else
    lit (r#"<section class="mb-5"><h2 class="display-6 mb-4">"#) ++ orgName
      ++ lit (r#"</h2><div class="two-columns">"#)
      ++ (act.map repoCard).flatten ++ lit (r#"</div></section>"#)

/-- Like `sampleNodeA` but with open pull requests added: used to show the
Issues sub-table does not depend on the pull-request data. -/
def sampleNodeA2 : RepoNode :=
  { sampleNodeA with pullRequests := ⟨2, []⟩ }

/-- An issue whose title carries markup that closes the anchor element and
injects a script element. -/
def injectionIssue : IssueNode :=
  { title := lit (r#"</a><script>alert(1)</script>"#), url := lit (r"https://i/9"),
    createdAt := lit (r"2024-01-01T00:00:00Z"), updatedAt := lit (r"2024-01-01T00:00:00Z"),
    labels := [] }

/-- The `organization` object of a GraphQL response (its repository nodes). -/
structure OrgObj where
  repositories : List RepoNode
deriving DecidableEq

/-- The `data` object of a GraphQL response: the organization may be null. -/
structure GqlData where
  organization : Option OrgObj
deriving DecidableEq

/-- A decoded GraphQL response body: an optional `errors` list and an
optional `data` object.  JS truthiness of `data.errors` is `isSome`
(an empty errors array is still truthy). -/
structure GqlResult where
  errors : Option (List JStr)
  data : Option GqlData
deriving DecidableEq

/-- The raw outcome of one GraphQL `fetch`: a non-success HTTP response
carrying its status text, or a decoded body. -/
inductive FetchOutcome where
  | httpError (statusText : JStr)
  | ok (result : GqlResult)
deriving DecidableEq

/-- The post-fetch filtering in `fetchOrgData`: when `data` and
`organization` are present, archived repository nodes are removed. -/
def filterArchived (result : GqlResult) : GqlResult :=
  match result.data with
  | none => result
  | some d =>
    match d.organization with
    | none => result
    | some o =>
      let o2 : OrgObj :=
        { o with repositories := o.repositories.filter (fun repo => !repo.isArchived) }
      let d2 : GqlData := { d with organization := some o2 }
      { result with data := some d2 }

/-- `fetchOrgData`: throws `GitHub API error: <statusText>` on a non-success
response, otherwise returns the decoded body with archived repositories
filtered out. -/
def fetchOrgData (net : JStr → FetchOutcome) (orgName : JStr) : Except JsError GqlResult :=
  match net orgName with
  | .httpError statusText => .error ⟨lit (r"GitHub API error: ") ++ statusText⟩
  | .ok result => .ok (filterArchived result)

/-- The fetch loop of `main`: organizations are fetched in order; a thrown
fetch aborts the loop; a body carrying an `errors` list is logged and
skipped; the remaining bodies populate `orgDataMap` in order. -/
def collectOrgData (net : JStr → FetchOutcome) :
    List JStr → Except JsError (List (JStr × GqlResult))
  | [] => .ok []
  | orgName :: rest =>
    match fetchOrgData net orgName with
    | .error e => .error e
    | .ok d =>
      if d.errors.isSome then collectOrgData net rest
      else (collectOrgData net rest).map (fun m => (orgName, d) :: m)

/-- `generateOrgSection` on a stored body: reading
`data.data.organization.repositories.nodes` throws a `TypeError` when `data`
or `organization` is missing. -/
def generateOrgSectionChecked (orgName : JStr) (d : GqlResult) : Except JsError JStr :=
  match d.data with
  | none => .error ⟨lit (r"TypeError: data is undefined")⟩
  | some dd =>
    match dd.organization with
    | none => .error ⟨lit (r"TypeError: organization is null")⟩
    | some o => .ok (generateOrgSectionCore orgName o.repositories)

/-- The `orgSections` accumulation of `main`: sections are concatenated in
map order; the first thrown section aborts. -/
def buildOrgSections : List (JStr × GqlResult) → Except JsError JStr
  | [] => .ok []
  | (orgName, d) :: rest =>
    match generateOrgSectionChecked orgName d with
    | .error e => .error e
    | .ok s =>
      match buildOrgSections rest with
      | .error e => .error e
      | .ok srest => .ok (s ++ srest)

/-- The optional chain
`orgDataMap['mage-os']?.data?.organization?.repositories?.nodes || []`. -/
def orgRepoNodes (orgDataMap : List (JStr × GqlResult)) (key : JStr) : List RepoNode :=
  match orgDataMap.find? (fun p => p.1 == key) with
  | none => []
  | some p =>
    match p.2.data with
    | none => []
    | some dd =>
      match dd.organization with
      | none => []
      | some o => o.repositories

/-- The `formattedDate` of a missing-mirrors row: `updated_at` split into
date and time, or `'-'` (`toISOString` modelled as the identity on the
stored ISO-UTC string). -/
def restRepoDate : Option JStr → JStr
  | some d =>
    (d.takeWhile (fun c => c != 'T')) ++ lit (r" ")
      ++ (((d.dropWhile (fun c => c != 'T')).drop 1).take 8)
  | none => lit (r"-")

/-- One row of the missing-mirrors table. -/
def missingMirrorRow (repo : RestRepo) : JStr :=
  lit (r#"<tr><td><a href=""#) ++ repo.html_url
    ++ lit (r#"" class="text-decoration-none" target="_blank">"#) ++ repo.name
    ++ lit (r#"</a></td><td>"#) ++ restRepoDate repo.updated_at ++ lit (r#"</td></tr>"#)

/-- The missing-mirrors section markup: a success message when nothing is
unmirrored, else a table with one row per repository. -/
def missingMirrorsHtml (unmirroredRepos : List RestRepo) : JStr :=
  if unmirroredRepos.isEmpty then
    lit (r#"<section class="mb-5"><h2 class="display-6 mb-4">Magento Repositories Without Mage-OS Mirrors</h2><div class="alert alert-success">All necessary Magento repositories have been mirrored.</div></section>"#)
  else
    lit (r#"<section class="mb-5"><h2 class="display-6 mb-4">Magento Repositories Without Mage-OS Mirrors</h2><table class="table table-bordered table-hover sortable" style="width:auto"><thead><tr><th>Repository</th><th>Last Updated</th></tr></thead><tbody>"#)
      ++ (unmirroredRepos.map missingMirrorRow).flatten
      ++ lit (r#"</tbody></table></section>"#)

/-- `generateMissingMirrorsSection` inside `main`: the listing outcome of
`fetchMagentoRepos` is supplied by the `magentoListing` oracle (a thrown
listing aborts the section), then the unmirrored scan renders. -/
def missingMirrorsSectionRun (orgDataMap : List (JStr × GqlResult))
    (magentoListing : Except JsError (List RestRepo)) (ignoreList : List JStr) :
    Except JsError JStr :=
  match magentoListing with
  | .error e => .error e
  | .ok magentoRepos =>
    .ok (missingMirrorsHtml
      (findUnmirrored magentoRepos (orgRepoNodes orgDataMap (lit (r"mage-os"))) ignoreList))

/-- One row of the workflow-runs table. -/
def workflowRow (rw : RepoWithRun) : JStr :=
  lit (r#"<tr><td><a href=""#) ++ rw.repo.url
    ++ lit (r#"" class="text-decoration-none" target="_blank">"#) ++ rw.repo.name
    ++ lit (r#"</a></td><td>"#) ++ formattedRunDate rw.lastRunDate ++ lit (r#"</td></tr>"#)

/-- `generateWorkflowRunsSection` inside `main`: mage-os repositories,
non-archived, sorted by name, each resolved through the per-repository
lookup (failures degrade to the null marker), rendered as a table. -/
def workflowSectionRun (orgDataMap : List (JStr × GqlResult))
    (lookup : JStr → Except JsError RunsData) : JStr :=
  let sortedRepos := List.insertionSort nodeNameLe
    ((orgRepoNodes orgDataMap (lit (r"mage-os"))).filter (fun repo => !repo.isArchived))
  lit (r#"<section class="mb-5"><h2 class="display-6 mb-4">Workflow Runs</h2><table id="workflowRunsTable" class="table table-bordered table-hover sortable" style="width:auto"><thead><tr><th>Repository</th><th>Last Workflow Run</th></tr></thead><tbody>"#)
    ++ ((sortedRepos.map (resolveRepo lookup)).map workflowRow).flatten
    ++ lit (r#"</tbody></table></section>"#)

/-- The document shell of `generateHTML` (the constant `<head>` and
`<style>` text elided); `now` is the run timestamp. -/
def generateHTML (orgSections missingMirrorsSection workflowSection now : JStr) : JStr :=
  lit (r#"<!DOCTYPE html><html lang="en"><head><title>Mage-OS Dashboard</title></head><body><div class="container"><header class="mb-4"><h1 class="display-5">Mage-OS Dashboard</h1><p class="last-update">Last updated: "#)
    ++ now ++ lit (r#"</p></header>"#)
    ++ orgSections ++ missingMirrorsSection ++ workflowSection
    ++ lit (r#"</div></body></html>"#)

/-- `main`: collect the organizations' data (transport failures throw,
bodies with `errors` are skipped), fail when nothing was collected, build
the report parts (a thrown part aborts), render the document.  `.ok html`
is a run that writes the artifact and exits 0; `.error e` logs and exits
1. -/
def mainRun (orgs : List JStr) (net : JStr → FetchOutcome)
    (magentoListing : Except JsError (List RestRepo))
    (lookup : JStr → Except JsError RunsData)
    (ignoreList : List JStr) (now : JStr) : Except JsError JStr :=
  match collectOrgData net orgs with
  | .error e => .error e
  | .ok orgDataMap =>
    if orgDataMap.isEmpty then
      .error ⟨lit (r"No organization data was successfully retrieved")⟩
    else
      match buildOrgSections orgDataMap with
      | .error e => .error e
      | .ok orgSections =>
        match missingMirrorsSectionRun orgDataMap magentoListing ignoreList with
        | .error e => .error e
        | .ok mm =>
          .ok (generateHTML orgSections mm (workflowSectionRun orgDataMap lookup) now)

/-- The process exit code of a run. -/
def exitCode : Except JsError JStr → Nat
  | .ok _ => 0
  | .error _ => 1

/-- A well-formed GraphQL body with one repository and no errors. -/
def sampleGqlGood : GqlResult :=
  { errors := none, data := some { organization := some { repositories := [sampleNodeA] } } }

/-- A GraphQL body carrying an errors list. -/
def sampleGqlErrors : GqlResult :=
  { errors := some [lit (r"something went wrong")], data := none }

/-- A network where `mage-os` succeeds and every other organization fails at
the transport level. -/
def sampleNet : JStr → FetchOutcome :=
  fun orgName =>
    if orgName == lit (r"mage-os") then .ok sampleGqlGood
    else .httpError (lit (r"Not Found"))

/-- A network where `mage-os` succeeds and every other organization returns
a success-status body carrying a GraphQL errors list. -/
def sampleNetSkip : JStr → FetchOutcome :=
  fun orgName =>
    if orgName == lit (r"mage-os") then .ok sampleGqlGood
    else .ok sampleGqlErrors

theorem jsStrLe_total_prop : ∀ (a b : JStr), jsStrLe a b = true ∨ jsStrLe b a = true
  | [], b => by left; cases b <;> simp [jsStrLe]
  | a :: as, [] => by right; simp [jsStrLe]
  | a :: as, b :: bs => by
    simp only [jsStrLe]
    rcases jsStrLe_total_prop as bs with h | h <;>
      by_cases h1 : a.toNat < b.toNat <;> by_cases h2 : b.toNat < a.toNat <;>
        simp [h1, h2, h]

theorem jsStrLe_trans_prop : ∀ (a b c : JStr),
    jsStrLe a b = true → jsStrLe b c = true → jsStrLe a c = true
  | [], _, c, _, _ => by cases c <;> simp [jsStrLe]
  | a :: as, [], c, h, _ => by simp [jsStrLe] at h
  | a :: as, b :: bs, [], _, h2 => by simp [jsStrLe] at h2
  | a :: as, b :: bs, c :: cs, h1, h2 => by
    simp only [jsStrLe] at h1 h2 ⊢
    by_cases hab : a.toNat < b.toNat <;> by_cases hba : b.toNat < a.toNat <;>
      by_cases hbc : b.toNat < c.toNat <;> by_cases hcb : c.toNat < b.toNat <;>
        simp [hab, hba, hbc, hcb] at h1 h2 ⊢ <;>
          first
          | omega
          | (constructor <;> omega)
          | exact jsStrLe_trans_prop as bs cs h1 h2
          | exact Or.inl (by omega)
          | exact Or.inr ⟨by omega, jsStrLe_trans_prop as bs cs h1 h2⟩

theorem jsMapInsert_mem {m : List (JStr × α)} {k : JStr} {v : α} {p : JStr × α}
    (h : p ∈ jsMapInsert m k v) : p ∈ m ∨ p = (k, v) := by
  unfold jsMapInsert at h
  split at h
  · rcases List.mem_map.mp h with ⟨q, hq, hqe⟩
    by_cases hk : q.1 == k
    · simp [hk] at hqe; exact Or.inr hqe.symm
    · simp [hk] at hqe; exact Or.inl (hqe ▸ hq)
  · rcases List.mem_append.mp h with h' | h'
    · exact Or.inl h'
    · exact Or.inr (List.mem_singleton.mp h')

theorem jsMapFoldl_mem : ∀ (pairs acc : List (JStr × α)) (p : JStr × α),
    p ∈ pairs.foldl (fun m q => jsMapInsert m q.1 q.2) acc → p ∈ acc ∨ p ∈ pairs
  | [], _, _, h => Or.inl h
  | q :: rest, acc, p, h => by
    rcases jsMapFoldl_mem rest (jsMapInsert acc q.1 q.2) p h with h' | h'
    · rcases jsMapInsert_mem h' with h'' | h''
      · exact Or.inl h''
      · exact Or.inr (by simp [h''])
    · exact Or.inr (List.mem_cons_of_mem _ h')

theorem jsMapOfList_mem {pairs : List (JStr × α)} {p : JStr × α}
    (h : p ∈ jsMapOfList pairs) : p ∈ pairs := by
  rcases jsMapFoldl_mem pairs [] p h with h' | h'
  · cases h'
  · exact h'

theorem jsMapInsert_keys_nodup {m : List (JStr × α)} {k : JStr} {v : α}
    (h : (m.map Prod.fst).Nodup) : ((jsMapInsert m k v).map Prod.fst).Nodup := by
  unfold jsMapInsert
  split
  · have heq : (m.map (fun p => if p.1 == k then (k, v) else p)).map Prod.fst
        = m.map Prod.fst := by
      rw [List.map_map]
      apply List.map_congr_left
      intro p _
      by_cases hp : p.1 = k
      · simp [hp]
      · simp [hp]
    rw [heq]; exact h
  · rename_i hany
    rw [List.map_append]
    refine List.Nodup.append h (List.nodup_singleton k) ?_
    intro x hx hk
    rcases List.mem_map.mp hx with ⟨q, hq, rfl⟩
    simp only [List.map_cons, List.map_nil, List.mem_singleton] at hk
    exact hany (List.any_eq_true.mpr ⟨q, hq, by simp [hk]⟩)

theorem jsMapFoldl_keys_nodup : ∀ (pairs acc : List (JStr × α)),
    (acc.map Prod.fst).Nodup →
    ((pairs.foldl (fun m q => jsMapInsert m q.1 q.2) acc).map Prod.fst).Nodup
  | [], _, h => h
  | q :: rest, acc, h =>
    jsMapFoldl_keys_nodup rest (jsMapInsert acc q.1 q.2) (jsMapInsert_keys_nodup h)

theorem jsMapOfList_keys_nodup (pairs : List (JStr × α)) :
    ((jsMapOfList pairs).map Prod.fst).Nodup :=
  jsMapFoldl_keys_nodup pairs [] List.Pairwise.nil

theorem jsMapOfList_name_inv {repos : List RestRepo} {p : JStr × RestRepo}
    (h : p ∈ jsMapOfList (repos.map (fun repo => (repo.name, repo)))) : p.1 = p.2.name := by
  have h' := jsMapOfList_mem h
  rcases List.mem_map.mp h' with ⟨repo, _, hre⟩
  rw [← hre]

theorem mirroredRepoNames_mem {mos : List RepoNode} {n : JStr} :
    n ∈ mirroredRepoNames mos ↔ ∃ m ∈ mos, m.name = lit (r"mirror-") ++ n := by
  unfold mirroredRepoNames
  simp only [List.mem_map, List.mem_filter]
  constructor
  · rintro ⟨repo, ⟨hmem, hpre⟩, rfl⟩
    refine ⟨repo, hmem, ?_⟩
    have hp := List.prefix_iff_eq_append.mp (List.isPrefixOf_iff_prefix.mp hpre)
    have hlen : (lit (r"mirror-")).length = 7 := by decide
    rw [hlen] at hp
    exact hp.symm
  · rintro ⟨m, hmem, hname⟩
    refine ⟨m, ⟨hmem, ?_⟩, ?_⟩
    · exact List.isPrefixOf_iff_prefix.mpr (hname ▸ List.prefix_append _ _)
    · rw [hname]
      exact List.drop_left' (by decide)

theorem contains_false_not_mem {l : List JStr} {a : JStr}
    (h : l.contains a = false) : a ∉ l := by
  intro hmem
  have ht : l.contains a = true :=
    List.contains_iff_exists_mem_beq.mpr ⟨a, hmem, by simp⟩
  rw [h] at ht
  cases ht

theorem findUnmirrored_mem {mag : List RestRepo} {mos : List RepoNode} {ign : List JStr}
    {r : RestRepo} (h : r ∈ findUnmirrored mag mos ign) :
    r.name ∉ mirroredRepoNames mos ∧ r.name ∉ ign := by
  unfold findUnmirrored at h
  have h1 := (List.perm_insertionSort restNameLe _).mem_iff.mp h
  rcases List.mem_map.mp h1 with ⟨p, hp, rfl⟩
  rcases List.mem_filter.mp hp with ⟨hpm, hpred⟩
  have hinv := jsMapOfList_name_inv hpm
  rw [Bool.and_eq_true, Bool.not_eq_true', Bool.not_eq_true'] at hpred
  rw [← hinv]
  exact ⟨contains_false_not_mem hpred.1, contains_false_not_mem hpred.2⟩

/-- C1: the unmirrored scan of `generateMissingMirrorsSection` excludes every
upstream repository that has a mirror-organization repository named exactly
`"mirror-" + name`, and the mirrored-base-name set contains exactly the names
obtained from mirror-organization repositories carrying the case-sensitive
`"mirror-"` prefix — repositories without the prefix contribute nothing. -/
theorem reconciler_excludes_mirrored
    (magentoRepos : List RestRepo) (mageOsRepos : List RepoNode) (ignoreList : List JStr) :
    (∀ r ∈ findUnmirrored magentoRepos mageOsRepos ignoreList,
      ∀ m ∈ mageOsRepos, m.name ≠ lit (r"mirror-") ++ r.name)
    ∧ (∀ n : JStr, n ∈ mirroredRepoNames mageOsRepos ↔
        ∃ m ∈ mageOsRepos, m.name = lit (r"mirror-") ++ n) := by
  constructor
  · intro r hr m hm hname
    exact (findUnmirrored_mem hr).1 (mirroredRepoNames_mem.mpr ⟨m, hm, hname⟩)
  · intro n
    exact mirroredRepoNames_mem

/-- Witness for C1 at a concrete input: `magento2` is mirrored and excluded,
`baler` survives and indeed has no `mirror-baler` counterpart. -/
theorem reconciler_excludes_mirrored_witness :
    sampleMagentoB ∈ findUnmirrored [sampleMagentoA, sampleMagentoB] [sampleMirrorNode] []
    ∧ sampleMirrorNode.name ≠ lit (r"mirror-") ++ sampleMagentoB.name :=
  ⟨by decide,
   (reconciler_excludes_mirrored [sampleMagentoA, sampleMagentoB] [sampleMirrorNode] []).1
     sampleMagentoB (by decide) sampleMirrorNode (by decide)⟩

/-- C2: the unmirrored scan excludes every repository whose name is in the
ignore list, whether or not it has a mirror. -/
theorem reconciler_excludes_ignored
    (magentoRepos : List RestRepo) (mageOsRepos : List RepoNode) (ignoreList : List JStr) :
    ∀ r ∈ findUnmirrored magentoRepos mageOsRepos ignoreList, r.name ∉ ignoreList :=
  fun _ hr => (findUnmirrored_mem hr).2

/-- Witness for C2 at a concrete input: with `baler` ignored, only `magento2`
survives, and its name is not in the ignore list. -/
theorem reconciler_excludes_ignored_witness :
    sampleMagentoA ∈ findUnmirrored [sampleMagentoA, sampleMagentoB] [] [lit (r"baler")]
    ∧ sampleMagentoA.name ∉ [lit (r"baler")] :=
  ⟨by decide,
   reconciler_excludes_ignored [sampleMagentoA, sampleMagentoB] [] [lit (r"baler")]
     sampleMagentoA (by decide)⟩

/-- C3: the unmirrored scan's result is sorted ascending by name (under the
locale-naive comparison modelling `localeCompare`) and its names contain no
duplicates, even when the upstream input list contains duplicate names (the
scan dedupes through a JS `Map` keyed by name). -/
theorem reconciler_sorted_nodup
    (magentoRepos : List RestRepo) (mageOsRepos : List RepoNode) (ignoreList : List JStr) :
    (findUnmirrored magentoRepos mageOsRepos ignoreList).Pairwise restNameLe
    ∧ ((findUnmirrored magentoRepos mageOsRepos ignoreList).map RestRepo.name).Nodup := by
  constructor
  · exact @List.sorted_insertionSort RestRepo restNameLe _
      ⟨fun a b => jsStrLe_total_prop a.name b.name⟩
      ⟨fun a b c hab hbc => jsStrLe_trans_prop a.name b.name c.name hab hbc⟩ _
  · unfold findUnmirrored
    have hperm : ((List.insertionSort restNameLe
        ((jsMapOfList (magentoRepos.map (fun repo => (repo.name, repo)))).filter
          (fun p => !((mirroredRepoNames mageOsRepos).contains p.1)
            && !(ignoreList.contains p.1)) |>.map Prod.snd)).map RestRepo.name).Perm
        (((jsMapOfList (magentoRepos.map (fun repo => (repo.name, repo)))).filter
          (fun p => !((mirroredRepoNames mageOsRepos).contains p.1)
            && !(ignoreList.contains p.1)) |>.map Prod.snd).map RestRepo.name) :=
      (List.perm_insertionSort restNameLe _).map RestRepo.name
    rw [List.Perm.nodup_iff hperm, List.map_map]
    have hcongr : ((jsMapOfList (magentoRepos.map (fun repo => (repo.name, repo)))).filter
          (fun p => !((mirroredRepoNames mageOsRepos).contains p.1)
            && !(ignoreList.contains p.1))).map (RestRepo.name ∘ Prod.snd)
        = ((jsMapOfList (magentoRepos.map (fun repo => (repo.name, repo)))).filter
          (fun p => !((mirroredRepoNames mageOsRepos).contains p.1)
            && !(ignoreList.contains p.1))).map Prod.fst := by
      apply List.map_congr_left
      intro p hp
      exact (jsMapOfList_name_inv (List.mem_of_mem_filter hp)).symm
    rw [hcongr]
    exact ((List.filter_sublist _).map Prod.fst).nodup
      (jsMapOfList_keys_nodup (magentoRepos.map (fun repo => (repo.name, repo))))

theorem promiseAllSlots_foldl_getElem (tasks : List α) :
    ∀ (order : List Nat) (slots : List (Option α)), slots.length = tasks.length →
      ∀ j, (order.foldl
          (fun s i =>
            match tasks[i]? with
            | some v => s.set i (some v)
            | none => s) slots)[j]?
        = if j ∈ order ∧ j < tasks.length then (tasks[j]?).map some else slots[j]?
  | [], slots, _, j => by simp
  | i :: rest, slots, hlen, j => by
    rw [List.foldl_cons]
    cases htask : tasks[i]? with
    | none =>
      rw [promiseAllSlots_foldl_getElem tasks rest slots hlen j]
      have hge : tasks.length ≤ i := by
        by_contra hlt
        exact absurd htask (by simp [List.getElem?_eq_getElem (Nat.lt_of_not_le hlt)])
      by_cases hjr : j ∈ rest ∧ j < tasks.length
      · simp [hjr, hjr.1, hjr.2]
      · have : ¬(j ∈ i :: rest ∧ j < tasks.length) := by
          intro ⟨hmem, hlt⟩
          rcases List.mem_cons.mp hmem with rfl | hmr
          · omega
          · exact hjr ⟨hmr, hlt⟩
        simp only [hjr, if_false, this, if_false]
    | some v =>
      have hlen' : (slots.set i (some v)).length = tasks.length := by
        rw [List.length_set]; exact hlen
      rw [promiseAllSlots_foldl_getElem tasks rest (slots.set i (some v)) hlen' j]
      have hi : i < tasks.length := by
        by_contra hge
        exact absurd htask (by simp [List.getElem?_eq_none (Nat.le_of_not_lt hge)])
      by_cases hjr : j ∈ rest ∧ j < tasks.length
      · simp [hjr, hjr.1, hjr.2]
      · by_cases hji : j = i
        · subst hji
          have hset : (slots.set j (some v))[j]? = some (some v) :=
            List.getElem?_set_self (by rw [hlen]; exact hi)
          simp only [hjr, if_false, hset]
          have : j ∈ j :: rest ∧ j < tasks.length := ⟨List.mem_cons_self j rest, hi⟩
          simp [this, htask]
        · have hset : (slots.set i (some v))[j]? = slots[j]? :=
            List.getElem?_set_ne (fun h => hji h.symm)
          have : ¬(j ∈ i :: rest ∧ j < tasks.length) := by
            intro ⟨hmem, hlt⟩
            rcases List.mem_cons.mp hmem with rfl | hmr
            · exact hji rfl
            · exact hjr ⟨hmr, hlt⟩
          simp only [hjr, if_false, this, if_false, hset]

theorem promiseAllSlots_complete (tasks : List α) (order : List Nat)
    (hperm : order.Perm (List.range tasks.length)) :
    promiseAllSlots tasks order = tasks.map some := by
  apply List.ext_getElem?
  intro j
  unfold promiseAllSlots
  rw [promiseAllSlots_foldl_getElem tasks order (List.replicate tasks.length none)
    (List.length_replicate _ _) j]
  by_cases hj : j < tasks.length
  · have hmem : j ∈ order := hperm.mem_iff.mpr (List.mem_range.mpr hj)
    simp [hmem, hj]
  · have hnone : tasks[j]? = none := List.getElem?_eq_none (Nat.le_of_not_lt hj)
    have hrep : (List.replicate tasks.length (none : Option α))[j]? = none :=
      List.getElem?_eq_none (by rw [List.length_replicate]; exact Nat.le_of_not_lt hj)
    simp [hj, hnone, hrep]

theorem resolveRepo_repo (lookup : JStr → Except JsError RunsData) (repo : RepoNode) :
    (resolveRepo lookup repo).repo = repo := by
  unfold resolveRepo
  split
  · rfl
  · rfl

/-- C4: the per-repository lookup phase of `generateWorkflowRunsSection`
produces, for any completion order of the individual lookups, exactly one
record per input repository, slotted in input order: the batch equals the
per-repository results in input position, its length equals the input length,
and the i-th record carries the i-th input repository. -/
theorem freshness_resolver_order (repos : List RepoNode)
    (lookup : JStr → Except JsError RunsData) (order : List Nat)
    (horder : order.Perm (List.range (repos.map (resolveRepo lookup)).length)) :
    promiseAllSlots (repos.map (resolveRepo lookup)) order
      = (repos.map (resolveRepo lookup)).map some
    ∧ (repos.map (resolveRepo lookup)).length = repos.length
    ∧ (repos.map (resolveRepo lookup)).map RepoWithRun.repo = repos := by
  refine ⟨promiseAllSlots_complete _ _ horder, List.length_map _ _, ?_⟩
  rw [List.map_map]
  calc repos.map (RepoWithRun.repo ∘ resolveRepo lookup)
      = repos.map id := List.map_congr_left (fun repo _ => resolveRepo_repo lookup repo)
    _ = repos := List.map_id repos

/-- Witness for C4 at a concrete input: two repositories whose lookups
complete in reversed order still yield records in input order. -/
theorem freshness_resolver_order_witness :
    ([1, 0].Perm (List.range ([sampleNodeA, sampleNodeB].map (resolveRepo sampleLookup)).length))
    ∧ (promiseAllSlots ([sampleNodeA, sampleNodeB].map (resolveRepo sampleLookup)) [1, 0]
        = ([sampleNodeA, sampleNodeB].map (resolveRepo sampleLookup)).map some
      ∧ ([sampleNodeA, sampleNodeB].map (resolveRepo sampleLookup)).length
          = [sampleNodeA, sampleNodeB].length
      ∧ ([sampleNodeA, sampleNodeB].map (resolveRepo sampleLookup)).map RepoWithRun.repo
          = [sampleNodeA, sampleNodeB]) :=
  ⟨by decide,
   freshness_resolver_order [sampleNodeA, sampleNodeB] sampleLookup [1, 0] (by decide)⟩

/-- C5: a repository whose lookup throws gets a null `lastRunDate` (rendered
as the `'-'` marker), repositories with a different name are unaffected by
what the failing lookup does, and the batch still completes with one record
per input repository. -/
theorem freshness_failure_isolated (repos : List RepoNode)
    (lookup lookup' : JStr → Except JsError RunsData) (failRepo : RepoNode) (e : JsError)
    (hfail : lookup failRepo.name = .error e)
    (hagree : ∀ nm, nm ≠ failRepo.name → lookup' nm = lookup nm) :
    (resolveRepo lookup failRepo).lastRunDate = none
    ∧ formattedRunDate (resolveRepo lookup failRepo).lastRunDate = lit (r"-")
    ∧ (∀ repo ∈ repos, repo.name ≠ failRepo.name →
        resolveRepo lookup' repo = resolveRepo lookup repo)
    ∧ (repos.map (resolveRepo lookup)).length = repos.length := by
  refine ⟨?_, ?_, ?_, List.length_map _ _⟩
  · unfold resolveRepo
    rw [hfail]
  · unfold resolveRepo
    rw [hfail]
    rfl
  · intro repo _ hne
    unfold resolveRepo
    rw [hagree repo.name hne]

/-- Witness for C5 at a concrete input: the lookup for `beta` throws; its
record carries the null marker, while `alpha`'s record does not depend on the
failing lookup's behaviour, and both records are produced. -/
theorem freshness_failure_isolated_witness :
    sampleLookup sampleNodeB.name = .error sampleErr
    ∧ (resolveRepo sampleLookup sampleNodeB).lastRunDate = none
    ∧ formattedRunDate (resolveRepo sampleLookup sampleNodeB).lastRunDate = lit (r"-")
    ∧ resolveRepo sampleLookupAlt sampleNodeA = resolveRepo sampleLookup sampleNodeA
    ∧ (([sampleNodeA, sampleNodeB].map (resolveRepo sampleLookup)).length
        = [sampleNodeA, sampleNodeB].length) :=
  have happly := freshness_failure_isolated [sampleNodeA, sampleNodeB] sampleLookup
    sampleLookupAlt sampleNodeB sampleErr rfl
    (fun nm hne => by
      have hne' : nm ≠ lit (r"beta") := hne
      simp only [sampleLookupAlt, beq_eq_false_iff_ne.mpr hne', Bool.false_eq_true,
        if_false])
  ⟨rfl, happly.1, happly.2.1,
   happly.2.2.1 sampleNodeA (by decide) (by decide), happly.2.2.2⟩

theorem fetchLoop_ok (pages : Nat → Except JsError (List RestRepo)) :
    ∀ (L : List (List RestRepo)) (page : Nat) (acc : List RestRepo) (fuel : Nat),
      L ≠ [] →
      (∀ i (h : i < L.length), pages (page + i) = .ok L[i]) →
      (∀ i (h : i < L.length), i + 1 < L.length → 100 ≤ L[i].length) →
      (L.getLastD []).length < 100 →
      L.length ≤ fuel →
      fetchLoop pages fuel page acc = some (.ok (acc ++ L.flatten))
  | [], _, _, _, hne, _, _, _, _ => absurd rfl hne
  | [x], page, acc, fuel, _, hpages, _, hlast, hfuel => by
    obtain ⟨f, rfl⟩ : ∃ f, fuel = f + 1 := ⟨fuel - 1, by simp at hfuel; omega⟩
    unfold fetchLoop
    have h0 := hpages 0 (by simp)
    rw [Nat.add_zero] at h0
    rw [h0]
    have hx : x.length < 100 := by simpa using hlast
    simp [hx]
  | x :: y :: rest, page, acc, fuel, _, hpages, hfull, hlast, hfuel => by
    obtain ⟨f, rfl⟩ : ∃ f, fuel = f + 1 := ⟨fuel - 1, by simp at hfuel; omega⟩
    unfold fetchLoop
    have h0 := hpages 0 (by simp)
    rw [Nat.add_zero] at h0
    simp only [List.getElem_cons_zero] at h0
    rw [h0]
    dsimp only
    have hx : 100 ≤ x.length := hfull 0 (by simp) (by simp)
    rw [if_neg (by omega)]
    rw [fetchLoop_ok pages (y :: rest) (page + 1) (acc ++ x) f (by simp)
      (fun i h => by
        have := hpages (i + 1) (by simp at h ⊢; omega)
        rw [show page + (i + 1) = page + 1 + i by omega] at this
        simpa using this)
      (fun i h hlt => by
        have := hfull (i + 1) (by simp at h ⊢; omega) (by simp at hlt ⊢; omega)
        simpa using this)
      (by
        rw [List.getLastD_eq_getLast?] at hlast ⊢
        rwa [List.getLast?_cons_cons] at hlast)
      (by simp at hfuel ⊢; omega)]
    simp

theorem fetchLoop_err (pages : Nat → Except JsError (List RestRepo)) :
    ∀ (L : List (List RestRepo)) (page : Nat) (acc : List RestRepo) (fuel : Nat) (e : JsError),
      (∀ i (h : i < L.length), pages (page + i) = .ok L[i] ∧ 100 ≤ L[i].length) →
      pages (page + L.length) = .error e →
      L.length < fuel →
      fetchLoop pages fuel page acc = some (.error e)
  | [], page, acc, fuel, e, _, herr, hfuel => by
    obtain ⟨f, rfl⟩ : ∃ f, fuel = f + 1 := ⟨fuel - 1, by omega⟩
    unfold fetchLoop
    simp only [List.length_nil, Nat.add_zero] at herr
    rw [herr]
  | x :: rest, page, acc, fuel, e, hpages, herr, hfuel => by
    obtain ⟨f, rfl⟩ : ∃ f, fuel = f + 1 := ⟨fuel - 1, by omega⟩
    unfold fetchLoop
    have h0 := hpages 0 (by simp)
    rw [Nat.add_zero] at h0
    simp only [List.getElem_cons_zero] at h0
    rw [h0.1]
    dsimp only
    rw [if_neg (by have := h0.2; omega)]
    exact fetchLoop_err pages rest (page + 1) (acc ++ x) f e
      (fun i h => by
        have := hpages (i + 1) (by simp at h ⊢; omega)
        rw [show page + (i + 1) = page + 1 + i by omega] at this
        simpa using this)
      (by
        rw [show page + 1 + rest.length = page + (x :: rest).length by
          simp only [List.length_cons]; omega]
        exact herr)
      (by simp at hfuel; omega)

/-- C6: `fetchMagentoRepos` requests successive pages until the first page
with fewer than 100 records and returns the concatenation of all pages
filtered to non-archived repositories; if any page request fails, the whole
listing call fails with that error and no partial list is returned. -/
theorem fetchMagentoRepos_pagination :
    (∀ (pages : Nat → Except JsError (List RestRepo)) (L : List (List RestRepo)) (fuel : Nat),
      L ≠ [] →
      (∀ i (h : i < L.length), pages (1 + i) = .ok L[i]) →
      (∀ i (h : i < L.length), i + 1 < L.length → 100 ≤ L[i].length) →
      (L.getLastD []).length < 100 →
      L.length ≤ fuel →
      fetchMagentoRepos pages fuel
        = some (.ok (L.flatten.filter (fun repo => !repo.archived))))
    ∧ (∀ (pages : Nat → Except JsError (List RestRepo)) (L : List (List RestRepo))
        (fuel : Nat) (e : JsError),
      (∀ i (h : i < L.length), pages (1 + i) = .ok L[i] ∧ 100 ≤ L[i].length) →
      pages (1 + L.length) = .error e →
      L.length < fuel →
      fetchMagentoRepos pages fuel = some (.error e)) := by
  constructor
  · intro pages L fuel hne hpages hfull hlast hfuel
    unfold fetchMagentoRepos
    rw [fetchLoop_ok pages L 1 [] fuel hne hpages hfull hlast hfuel]
    simp [Except.map]
  · intro pages L fuel e hpages herr hfuel
    unfold fetchMagentoRepos
    rw [fetchLoop_err pages L 1 [] fuel e hpages herr hfuel]
    simp [Except.map]

/-- Witness for C6 at concrete inputs: a one-page listing returns that page
filtered, and a failing first page aborts the whole call with the error. -/
theorem fetchMagentoRepos_pagination_witness :
    ([[sampleMagentoA]] ≠ ([] : List (List RestRepo)))
    ∧ ([[sampleMagentoA]].getLastD []).length < 100
    ∧ fetchMagentoRepos samplePages 1
        = some (.ok ([[sampleMagentoA]].flatten.filter (fun repo => !repo.archived)))
    ∧ fetchMagentoRepos samplePagesErr 1 = some (.error sampleErr) :=
  ⟨by decide, by decide,
   fetchMagentoRepos_pagination.1 samplePages [[sampleMagentoA]] 1 (by decide)
     (fun i h => by
       have h0 : i = 0 := Nat.lt_one_iff.mp (by simpa using h)
       subst h0
       rfl)
     (fun i h hlt => by simp at hlt)
     (by decide) (by decide),
   fetchMagentoRepos_pagination.2 samplePagesErr [] 1 sampleErr
     (fun i h => by simp at h)
     rfl (by decide)⟩

/-- C8: an organization section is empty exactly when no repository has open
issues or open pull requests; a repository card is included exactly for
repositories with a positive open-issue or open-pull-request count; the
Issues sub-table of a card is present exactly when the open-issue count is
positive, and depends only on the issue data (and likewise, independently,
for Pull Requests). -/
theorem orgSection_inclusion (orgName : JStr) (repos : List RepoNode) :
    (generateOrgSectionCore orgName repos = [] ↔ activeRepos repos = [])
    ∧ (∀ repo, repo ∈ activeRepos repos ↔
        repo ∈ repos ∧ (0 < repo.issues.totalCount ∨ 0 < repo.pullRequests.totalCount))
    ∧ (∀ repo, issuesBlock repo ≠ [] ↔ 0 < repo.issues.totalCount)
    ∧ (∀ repo, pullsBlock repo ≠ [] ↔ 0 < repo.pullRequests.totalCount)
    ∧ (∀ r1 r2 : RepoNode, r1.issues = r2.issues → issuesBlock r1 = issuesBlock r2)
    ∧ (∀ r1 r2 : RepoNode, r1.pullRequests = r2.pullRequests → pullsBlock r1 = pullsBlock r2) := by
  refine ⟨?_, ?_, ?_, ?_, ?_, ?_⟩
  · by_cases hact : activeRepos repos = []
    · simp [generateOrgSectionCore, hact]
    · have hne : lit (r#"<section class="mb-5"><h2 class="display-6 mb-4">"#) ≠ [] := by decide
      have hemp : (activeRepos repos).isEmpty = false := by
        simp [List.isEmpty_iff, hact]
      simp [generateOrgSectionCore, hemp, hact, List.append_eq_nil, hne]
  · intro repo
    simp [activeRepos, List.mem_filter]
  · intro repo
    by_cases h : 0 < repo.issues.totalCount
    · have hne : lit (r#"<h3 class="h6 table-title">Issues</h3><table class="table table-hover"><tbody>"#)
          ≠ [] := by decide
      simp [issuesBlock, h, List.append_eq_nil, hne]
    · simp [issuesBlock, h]
  · intro repo
    by_cases h : 0 < repo.pullRequests.totalCount
    · have hne : lit (r#"<h3 class="h6 table-title">Pull Requests</h3><table class="table table-hover"><tbody>"#)
          ≠ [] := by decide
      simp [pullsBlock, h, List.append_eq_nil, hne]
    · simp [pullsBlock, h]
  · intro r1 r2 h
    simp only [issuesBlock, h]
  · intro r1 r2 h
    simp only [pullsBlock, h]

/-- Witness for C8 at a concrete input: adding pull requests to a repository
leaves its Issues sub-table unchanged. -/
theorem orgSection_inclusion_witness :
    sampleNodeA2.issues = sampleNodeA.issues
    ∧ issuesBlock sampleNodeA2 = issuesBlock sampleNodeA :=
  ⟨rfl, (orgSection_inclusion (lit (r"mage-os")) []).2.2.2.2.1 sampleNodeA2 sampleNodeA rfl⟩

set_option maxRecDepth 8192 in
/-- C9 (code bug): the renderer interpolates issue titles verbatim — a title
carrying markup appears unescaped in the rendered row, so it can alter the
document structure (the claim asks for structural escaping, which the code
does not perform). -/
theorem title_injection_unescaped :
    lit (r#"</a><script>alert(1)</script>"#) <:+: issueRow injectionIssue
    ∧ lit (r#"<script>"#) <:+: issueRow injectionIssue := by
  constructor
  · decide
  · decide

theorem filterArchived_errors (result : GqlResult) :
    (filterArchived result).errors = result.errors := by
  unfold filterArchived
  split
  · rfl
  · split
    · rfl
    · rfl

theorem collectOrgData_skip (net : JStr → FetchOutcome) :
    ∀ (pre : List JStr) (o : JStr) (post : List JStr) (d : GqlResult),
      net o = .ok d → d.errors.isSome = true →
      collectOrgData net (pre ++ o :: post) = collectOrgData net (pre ++ post)
  | [], o, post, d, hok, herr => by
    simp only [List.nil_append]
    conv_lhs => rw [collectOrgData]
    unfold fetchOrgData
    rw [hok]
    dsimp only
    rw [if_pos (by rw [filterArchived_errors]; exact herr)]
  | p :: pre, o, post, d, hok, herr => by
    simp only [List.cons_append]
    unfold collectOrgData
    cases hp : fetchOrgData net p with
    | error e => rfl
    | ok dp =>
      dsimp only
      by_cases hd : dp.errors.isSome
      · rw [if_pos hd, if_pos hd]
        exact collectOrgData_skip net pre o post d hok herr
      · rw [if_neg hd, if_neg hd, collectOrgData_skip net pre o post d hok herr]

theorem collectOrgData_isError_iff (net : JStr → FetchOutcome) :
    ∀ orgs : List JStr,
      (∃ e, collectOrgData net orgs = .error e)
        ↔ ∃ o ∈ orgs, ∃ st, net o = .httpError st
  | [] => by
    constructor
    · rintro ⟨e, he⟩
      cases he
    · rintro ⟨o, ho, _⟩
      cases ho
  | o :: rest => by
    unfold collectOrgData fetchOrgData
    cases hno : net o with
    | httpError st =>
      constructor
      · intro _
        exact ⟨o, List.mem_cons_self o rest, st, hno⟩
      · intro _
        exact ⟨⟨lit (r"GitHub API error: ") ++ st⟩, rfl⟩
    | ok result =>
      dsimp only
      by_cases hd : (filterArchived result).errors.isSome
      · rw [if_pos hd]
        rw [collectOrgData_isError_iff net rest]
        constructor
        · rintro ⟨o', ho', st, hst⟩
          exact ⟨o', List.mem_cons_of_mem o ho', st, hst⟩
        · rintro ⟨o', ho', st, hst⟩
          rcases List.mem_cons.mp ho' with rfl | hmem
          · rw [hno] at hst
            cases hst
          · exact ⟨o', hmem, st, hst⟩
      · rw [if_neg hd]
        constructor
        · rintro ⟨e, he⟩
          cases hrest : collectOrgData net rest with
          | error e' =>
            rcases (collectOrgData_isError_iff net rest).mp ⟨e', hrest⟩ with ⟨o', ho', st, hst⟩
            exact ⟨o', List.mem_cons_of_mem o ho', st, hst⟩
          | ok m =>
            rw [hrest] at he
            cases he
        · rintro ⟨o', ho', st, hst⟩
          rcases List.mem_cons.mp ho' with rfl | hmem
          · rw [hno] at hst
            cases hst
          · rcases (collectOrgData_isError_iff net rest).mpr ⟨o', hmem, st, hst⟩ with ⟨e, he⟩
            rw [he]
            exact ⟨e, rfl⟩

theorem collectOrgData_abort (net : JStr → FetchOutcome) :
    ∀ (pre : List JStr) (o : JStr) (post : List JStr) (st : JStr),
      net o = .httpError st →
      (∀ p ∈ pre, ∀ s, net p ≠ .httpError s) →
      collectOrgData net (pre ++ o :: post)
        = .error ⟨lit (r"GitHub API error: ") ++ st⟩
  | [], o, post, st, ho, _ => by
    simp only [List.nil_append]
    unfold collectOrgData fetchOrgData
    rw [ho]
  | p :: pre, o, post, st, ho, hpre => by
    simp only [List.cons_append]
    unfold collectOrgData
    cases hp : fetchOrgData net p with
    | error e =>
      exfalso
      unfold fetchOrgData at hp
      cases hnp : net p with
      | httpError s => exact hpre p (List.mem_cons_self p pre) s hnp
      | ok result =>
        rw [hnp] at hp
        cases hp
    | ok dp =>
      dsimp only
      rw [collectOrgData_abort net pre o post st ho
        (fun q hq s => hpre q (List.mem_cons_of_mem p hq) s)]
      split
      · rfl
      · rfl

/-- C7 (amended): a body carrying a GraphQL errors list only skips its own
organization (the others are still processed), and the run exits non-zero
exactly when an organization fetch fails at the transport level, or no
organization's data was retrieved, or an unhandled failure occurs while
assembling or rendering (a section build throws, or the awaited
mirror-listing fetch throws); otherwise the artifact is produced and the
exit code is 0. -/
theorem main_exit_contract (orgs : List JStr) (net : JStr → FetchOutcome)
    (magentoListing : Except JsError (List RestRepo))
    (lookup : JStr → Except JsError RunsData) (ignoreList : List JStr) (now : JStr) :
    (∀ (pre : List JStr) (o : JStr) (post : List JStr) (d : GqlResult),
      net o = .ok d → d.errors.isSome = true →
      collectOrgData net (pre ++ o :: post) = collectOrgData net (pre ++ post))
    ∧ (exitCode (mainRun orgs net magentoListing lookup ignoreList now) ≠ 0 ↔
        (∃ o ∈ orgs, ∃ st, net o = .httpError st)
        ∨ collectOrgData net orgs = .ok []
        ∨ (∃ l, collectOrgData net orgs = .ok l ∧ l ≠ []
            ∧ ((∃ e, buildOrgSections l = .error e) ∨ ∃ e, magentoListing = .error e))) := by
  constructor
  · exact fun pre o post d hok herr => collectOrgData_skip net pre o post d hok herr
  · cases hc : collectOrgData net orgs with
    | error e =>
      unfold mainRun
      rw [hc]
      refine iff_of_true (by simp [exitCode]) ?_
      exact Or.inl ((collectOrgData_isError_iff net orgs).mp ⟨e, hc⟩)
    | ok l =>
      unfold mainRun
      rw [hc]
      dsimp only
      by_cases hl : l.isEmpty
      · rw [if_pos hl]
        refine iff_of_true (by simp [exitCode]) ?_
        exact Or.inr (Or.inl (by rw [List.isEmpty_iff.mp hl]))
      · rw [if_neg hl]
        have hlne : l ≠ [] := fun h => hl (by simp [h])
        have hnohttp : ¬ ∃ o ∈ orgs, ∃ st, net o = .httpError st := by
          intro hex
          rcases (collectOrgData_isError_iff net orgs).mpr hex with ⟨e, he⟩
          rw [hc] at he
          cases he
        cases hb : buildOrgSections l with
        | error e =>
          refine iff_of_true (by simp [exitCode]) ?_
          exact Or.inr (Or.inr ⟨l, rfl, hlne, Or.inl ⟨e, hb⟩⟩)
        | ok s =>
          cases hm : magentoListing with
          | error e =>
            unfold missingMirrorsSectionRun
            dsimp only
            refine iff_of_true (by simp [exitCode]) ?_
            exact Or.inr (Or.inr ⟨l, rfl, hlne, Or.inr ⟨e, rfl⟩⟩)
          | ok mag =>
            unfold missingMirrorsSectionRun
            dsimp only
            refine iff_of_false (by simp [exitCode]) ?_
            rintro (hex | hemp | ⟨l', hl', hlne', herr⟩)
            · exact hnohttp hex
            · exact hlne (Except.ok.inj hemp)
            · have hll : l = l' := Except.ok.inj hl'
              subst hll
              rcases herr with ⟨e, he⟩ | ⟨e, he⟩
              · rw [hb] at he
                cases he
              · cases he

/-- The claim's biconditional fails at a concrete run: the second
organization's fetch fails at the transport level, so the run exits 1 even
though the first organization's data was retrieved (its body carries no
errors list) and assembling/rendering that retrieved data succeeds (the same
run without the failing organization exits 0 and writes the artifact). -/
theorem main_exit_contract_counterexample :
    exitCode (mainRun [lit (r"mage-os"), lit (r"mage-os-lab")] sampleNet
        (.ok []) sampleLookup [] (lit (r"2024-06-01T00:00:00Z"))) = 1
    ∧ fetchOrgData sampleNet (lit (r"mage-os")) = .ok sampleGqlGood
    ∧ sampleGqlGood.errors = none
    ∧ sampleNet (lit (r"mage-os-lab")) = .httpError (lit (r"Not Found"))
    ∧ exitCode (mainRun [lit (r"mage-os")] sampleNet
        (.ok []) sampleLookup [] (lit (r"2024-06-01T00:00:00Z"))) = 0 :=
  ⟨rfl, rfl, rfl, rfl, rfl⟩

/-- Witness for C7 at a concrete input: a body carrying a GraphQL errors
list makes the collection of that organization's data identical to a run
without that organization. -/
theorem main_exit_contract_witness :
    sampleNetSkip (lit (r"mage-os-lab")) = .ok sampleGqlErrors
    ∧ sampleGqlErrors.errors.isSome = true
    ∧ collectOrgData sampleNetSkip ([lit (r"mage-os")] ++ lit (r"mage-os-lab") :: [])
        = collectOrgData sampleNetSkip ([lit (r"mage-os")] ++ []) :=
  ⟨rfl, rfl,
   (main_exit_contract [] sampleNetSkip (.ok []) sampleLookup [] (lit (r"x"))).1
     [lit (r"mage-os")] (lit (r"mage-os-lab")) [] sampleGqlErrors rfl rfl⟩

/-- C10: a non-success HTTP status on any organization's GraphQL fetch
throws out of the fetch loop: the whole run aborts with that transport error
(non-zero exit, no artifact), and the outcome does not depend on the network
behaviour for the remaining organizations; by contrast, a success-status
body carrying a GraphQL errors list merely skips its own organization. -/
theorem transport_error_aborts (pre : List JStr) (o : JStr) (post : List JStr)
    (net net' : JStr → FetchOutcome) (magentoListing : Except JsError (List RestRepo))
    (lookup : JStr → Except JsError RunsData) (ignoreList : List JStr) (now : JStr)
    (st : JStr)
    (ho : net o = .httpError st)
    (hpre : ∀ p ∈ pre, ∀ s, net p ≠ .httpError s)
    (hagree : ∀ p ∈ pre, net' p = net p) (hagreeo : net' o = net o) :
    mainRun (pre ++ o :: post) net magentoListing lookup ignoreList now
      = .error ⟨lit (r"GitHub API error: ") ++ st⟩
    ∧ mainRun (pre ++ o :: post) net' magentoListing lookup ignoreList now
      = .error ⟨lit (r"GitHub API error: ") ++ st⟩
    ∧ exitCode (mainRun (pre ++ o :: post) net magentoListing lookup ignoreList now) = 1
    ∧ (∀ (net2 : JStr → FetchOutcome) (o2 : JStr) (d : GqlResult),
        net2 o2 = .ok d → d.errors.isSome = true →
        collectOrgData net2 (pre ++ o2 :: post) = collectOrgData net2 (pre ++ post)) := by
  have habort : collectOrgData net (pre ++ o :: post)
      = .error ⟨lit (r"GitHub API error: ") ++ st⟩ :=
    collectOrgData_abort net pre o post st ho hpre
  have habort' : collectOrgData net' (pre ++ o :: post)
      = .error ⟨lit (r"GitHub API error: ") ++ st⟩ :=
    collectOrgData_abort net' pre o post st (by rw [hagreeo]; exact ho)
      (fun p hp s => by rw [hagree p hp]; exact hpre p hp s)
  refine ⟨?_, ?_, ?_, ?_⟩
  · unfold mainRun
    rw [habort]
  · unfold mainRun
    rw [habort']
  · unfold mainRun
    rw [habort]
    rfl
  · exact fun net2 o2 d hok herr => collectOrgData_skip net2 pre o2 post d hok herr

/-- Witness for C10 at a concrete input: with `mage-os` healthy and
`mage-os-lab` failing at the transport level, the run aborts with the
transport error and exits 1. -/
theorem transport_error_aborts_witness :
    sampleNet (lit (r"mage-os-lab")) = .httpError (lit (r"Not Found"))
    ∧ mainRun ([lit (r"mage-os")] ++ lit (r"mage-os-lab") :: []) sampleNet
        (.ok []) sampleLookup [] (lit (r"x"))
      = .error ⟨lit (r"GitHub API error: ") ++ lit (r"Not Found")⟩
    ∧ exitCode (mainRun ([lit (r"mage-os")] ++ lit (r"mage-os-lab") :: []) sampleNet
        (.ok []) sampleLookup [] (lit (r"x"))) = 1 :=
  have happly := transport_error_aborts [lit (r"mage-os")] (lit (r"mage-os-lab")) []
    sampleNet sampleNet (.ok []) sampleLookup [] (lit (r"x")) (lit (r"Not Found")) rfl
    (fun p hp s hcon => by
      rw [List.mem_singleton] at hp
      subst hp
      rw [show sampleNet (lit (r"mage-os")) = .ok sampleGqlGood from rfl] at hcon
      cases hcon)
    (fun p _ => rfl) rfl
  ⟨rfl, happly.1, happly.2.2.1⟩
